import Mathlib

/-!
Verification of the Kraken 2 classification engine (`src/classify.cc`).

The definitions below are a shallow embedding of the classification
pipeline: taxon sentinels, the tree resolver (`ResolveTree`), the
per-fragment classifier (`ClassifySequence`), the hitlist renderer
(`AddHitlistString`), the read-id trimmer (`TrimPairInfo`), the ordered
output drain of `ProcessFiles`, and the paired batch loop.

Taxonomy operations (`IsAAncestorOfB`, `LowestCommonAncestor`, node
accessors) live in `taxonomy.cc`, which is not part of the provided
sources; they are modelled from the specification (sections 3 and 4.1).
Machine integers are modelled as `Nat`/`Int`; per-read counts are far
below the 32/64-bit bounds, and the one place where `size_t`
subtraction may wrap (`total_kmers`) is modelled with an explicit
`% 2^64`.
-/

namespace Kraken2

/-- Maximum value of `taxid_t` (`uint64_t`), i.e. `(taxid_t) -1`. -/
def TAXID_MAX : Nat := 2 ^ 64 - 1

/-- Sentinel pushed between the two mates of a pair (classify.cc line 33). -/
def MATE_PAIR_BORDER_TAXON : Nat := TAXID_MAX

/-- Sentinel pushed between translated reading frames (classify.cc line 34). -/
def READING_FRAME_BORDER_TAXON : Nat := TAXID_MAX - 1

/-- Sentinel pushed for an ambiguous minimizer window (classify.cc line 35). -/
def AMBIGUOUS_SPAN_TAXON : Nat := TAXID_MAX - 2

/-- Modelled from the spec: the read-only `TaxonomyOracle` (`taxonomy.cc` is
not among the provided sources; section 4.1 specifies its operations and
section 3 its data model).  `parent` maps each internal taxon id to its
parent; id `0` means "no taxon" and the root's parent is `0`.  The spec
requires every ancestor chain to terminate at the root in finite steps;
internal ids are topologically ordered (a parent has a smaller id than its
child), which is what the numeric chain walks of the oracle rely on.
`parent_pos` states that no nonzero non-root node dangles off the tree:
walking parents from any nonzero node stays nonzero until the root `1`. -/
structure Taxonomy where
  parent : Nat → Nat
  external_id : Nat → Nat
  name : Nat → String
  parent_lt : ∀ t : Nat, t ≠ 0 → parent t < t
  parent_pos : ∀ t : Nat, 1 < t → 0 < parent t

/-- Modelled from the spec: the ancestor chain of a node, from the node
itself down to `0` (section 3: "ancestor chain terminates at the root in
finite steps for every valid node"). -/
def chainList (tax : Taxonomy) (t : Nat) : List Nat :=
  if h : t = 0 then [0]
  else t :: chainList tax (tax.parent t)
termination_by t
decreasing_by exact tax.parent_lt t h

/-- Modelled from the spec: the descending walk inside `is_ancestor`
(section 4.1); repeatedly replaces `b` by its parent while `b > a`. -/
def ancWalk (tax : Taxonomy) (a b : Nat) : Nat :=
  if h : a < b then ancWalk tax a (tax.parent b)
  else b
termination_by b
decreasing_by exact tax.parent_lt b (by omega)

/-- Modelled from the spec: `is_ancestor(a, b)` — true iff `a` lies on the
parent chain of `b` (inclusive of `b`); `a = 0` is never an ancestor and
`b = 0` has no ancestors (section 4.1). -/
def IsAAncestorOfB (tax : Taxonomy) (a b : Nat) : Bool :=
  a ≠ 0 && b ≠ 0 && ancWalk tax a b == a

/-- Modelled from the spec: `lowest_common_ancestor(a, b)` — walks both
chains to the root and returns the deepest shared node; if either operand
is `0`, returns the other (section 4.1). -/
def LowestCommonAncestor (tax : Taxonomy) (a b : Nat) : Nat :=
  if a = 0 then b
  else if b = 0 then a
  else if a = b then a
  else if h : b < a then LowestCommonAncestor tax (tax.parent a) b
  else LowestCommonAncestor tax a (tax.parent b)
termination_by a + b
decreasing_by
· have := tax.parent_lt a (by omega)
  omega
· have : b ≠ 0 := by assumption
  have := tax.parent_lt b this
  omega

/-- The required score `ceil(confidence_threshold * total_minimizers)`
(classify.cc line 699).  The threshold is a `double` constrained to
`[0, 1]` by the CLI; it is modelled as a rational, which is exact for the
threshold values the claims use. -/
def requiredScore (threshold : ℚ) (totalMinimizers : Nat) : Nat :=
  (Int.toNat ⌈threshold * (totalMinimizers : ℚ)⌉)

/-- Hit counts: the contents of the `taxon_counts_t` unordered map, as the
association list in iteration order.  Keys are distinct in the C++ map. -/
abbrev HitCounts := List (Nat × Nat)

/-- The root-to-leaf score of candidate `taxon`: the sum over all observed
taxa `taxon2` with `IsAAncestorOfB taxon2 taxon` of their hit counts
(classify.cc lines 704-712, inner loop of `ResolveTree`). -/
def rtlScore (tax : Taxonomy) (hitCounts : HitCounts) (taxon : Nat) : Nat :=
  ((hitCounts.filter (fun kv => IsAAncestorOfB tax kv.1 taxon)).map (fun kv => kv.2)).sum

/-- One step of the phase-1 scan of `ResolveTree` (classify.cc lines
714-720): a strictly greater score replaces the running winner; an exact
tie replaces it with the LCA of the running winner and the candidate. -/
def resolveStep (tax : Taxonomy) (hitCounts : HitCounts)
    (acc : Nat × Nat) (kv : Nat × Nat) : Nat × Nat :=
  let score := rtlScore tax hitCounts kv.1
  if acc.1 < score then (score, kv.1)
  else if score = acc.1 then (acc.1, LowestCommonAncestor tax acc.2 kv.1)
  else acc

/-- Phase 1 of `ResolveTree`: scan `hit_counts` tracking
`(max_score, max_taxon)`, starting from `(0, 0)` (classify.cc lines
697-721). -/
def resolvePhase1 (tax : Taxonomy) (hitCounts : HitCounts) : Nat × Nat :=
  hitCounts.foldl (resolveStep tax hitCounts) (0, 0)

/-- Map lookup `hit_counts[t]` (classify.cc line 724).  Keys of the C++
map are distinct, so the sum over matching entries is the stored value
(and `0` when the key is absent, matching `operator[]` default
insertion, whose inserted zero entry never changes any later score). -/
def lookupCount (hitCounts : HitCounts) (t : Nat) : Nat :=
  ((hitCounts.filter (fun kv => kv.1 = t)).map (fun kv => kv.2)).sum

/-- The clade score of `winner`: sum of counts of all observed taxa in
`winner`'s clade (classify.cc lines 727-734). -/
def cladeScore (tax : Taxonomy) (hitCounts : HitCounts) (winner : Nat) : Nat :=
  ((hitCounts.filter (fun kv => IsAAncestorOfB tax winner kv.1)).map (fun kv => kv.2)).sum

/-- The phase-2 climb of `ResolveTree` (classify.cc lines 726-743): while
the winner is nonzero, return it as soon as its clade score reaches the
required score, otherwise move to its parent; reaching `0` returns `0`. -/
def resolveClimb (tax : Taxonomy) (hitCounts : HitCounts)
    (requiredSc : Nat) (winner : Nat) : Nat :=
  if h : winner = 0 then 0
  else if requiredSc ≤ cladeScore tax hitCounts winner then winner
  else resolveClimb tax hitCounts requiredSc (tax.parent winner)
termination_by winner
decreasing_by exact tax.parent_lt winner h

/-- `ResolveTree` (classify.cc lines 694-746): phase-1 scan picks the
maximal-RTL-score taxon with LCA tie-breaking; the `while` loop is then
entered only when the winner is nonzero and its own hit count is below the
required score, and climbs the tree for clade support. -/
def ResolveTree (hitCounts : HitCounts) (tax : Taxonomy)
    (totalMinimizers : Nat) (threshold : ℚ) : Nat :=
  let requiredSc := requiredScore threshold totalMinimizers
  let maxTaxon := (resolvePhase1 tax hitCounts).2
  let maxScore := lookupCount hitCounts maxTaxon
  if maxTaxon = 0 then maxTaxon
  else if requiredSc ≤ maxScore then maxTaxon
  else resolveClimb tax hitCounts requiredSc maxTaxon

/-- `TrimPairInfo` (classify.cc lines 748-755): an id of length at most 2
is returned unchanged; otherwise, if the last two characters are `/1` or
`/2` they are stripped.  Read ids are ASCII, so C++ byte positions
coincide with characters. -/
def TrimPairInfo (id : String) : String :=
  let cs := id.data
  let sz := cs.length
  if sz ≤ 2 then id
  else if cs.getD (sz - 2) 'x' = '/' ∧ (cs.getD (sz - 1) 'x' = '1' ∨ cs.getD (sz - 1) 'x' = '2')
  then String.mk (cs.take (sz - 2))
  else id

/-- One non-final run of the hitlist (classify.cc lines 908-920): borders
are emitted alone, ambiguous spans as `A:<count>`, ordinary taxa as
`<external_id>:<count>`; every non-final run gets a trailing space. -/
def midRunString (tax : Taxonomy) (lastCode cnt : Nat) : String :=
  if lastCode ≠ MATE_PAIR_BORDER_TAXON ∧ lastCode ≠ READING_FRAME_BORDER_TAXON then
    if lastCode = AMBIGUOUS_SPAN_TAXON then "A:" ++ toString cnt ++ " "
    else toString (tax.external_id lastCode) ++ ":" ++ toString cnt ++ " "
  else if lastCode = MATE_PAIR_BORDER_TAXON then "|:| " else "-:- "

/-- The final run of the hitlist (classify.cc lines 925-936).  Note the
source keeps the trailing space in the final ambiguous-span branch
(line 927: `oss << "A:" << code_count << " ";`), unlike the other final
branches. -/
def finalRunString (tax : Taxonomy) (lastCode cnt : Nat) : String :=
  if lastCode ≠ MATE_PAIR_BORDER_TAXON ∧ lastCode ≠ READING_FRAME_BORDER_TAXON then
    if lastCode = AMBIGUOUS_SPAN_TAXON then "A:" ++ toString cnt ++ " "
    else toString (tax.external_id lastCode) ++ ":" ++ toString cnt
  else if lastCode = MATE_PAIR_BORDER_TAXON then "|:|" else "-:-"

/-- The run-length-encoding loop of `AddHitlistString` (classify.cc lines
902-924), carrying `last_code` and `code_count`. -/
def hitlistLoop (tax : Taxonomy) (lastCode cnt : Nat) : List Nat → String
  | [] => finalRunString tax lastCode cnt
  | code :: rest =>
    if code = lastCode then hitlistLoop tax lastCode (cnt + 1) rest
    else midRunString tax lastCode cnt ++ hitlistLoop tax code 1 rest

/-- `AddHitlistString` (classify.cc lines 896-937).  The caller guarantees
a non-empty trail (classify.cc lines 885-888); the empty case is
unreachable. -/
def AddHitlistString (tax : Taxonomy) (taxa : List Nat) : String :=
  match taxa with
  | [] => ""
  | t :: rest => hitlistLoop tax t 1 rest

/-- The run-length decomposition computed by the loop of
`AddHitlistString`: the list of `(code, count)` runs, in order. -/
def hitlistRunsLoop (lastCode cnt : Nat) : List Nat → List (Nat × Nat)
  | [] => [(lastCode, cnt)]
  | code :: rest =>
    if code = lastCode then hitlistRunsLoop lastCode (cnt + 1) rest
    else (lastCode, cnt) :: hitlistRunsLoop code 1 rest

/-- The runs of a trail, matching `AddHitlistString`. -/
def hitlistRuns : List Nat → List (Nat × Nat)
  | [] => []
  | t :: rest => hitlistRunsLoop t 1 rest

/-- Rendering of a run list: non-final runs via `midRunString`, the final
run via `finalRunString`.  `AddHitlistString` equals this rendering of
`hitlistRuns` (proved below). -/
def renderRuns (tax : Taxonomy) : List (Nat × Nat) → String
  | [] => ""
  | [(c, n)] => finalRunString tax c n
  | (c, n) :: r :: rest => midRunString tax c n ++ renderRuns tax (r :: rest)

/-- True of trail entries that are neither the mate-pair border nor the
reading-frame border (ambiguous spans do count as minimizers). -/
def nonBorder (t : Nat) : Bool :=
  t ≠ MATE_PAIR_BORDER_TAXON && t ≠ READING_FRAME_BORDER_TAXON

/-- Sum of the counts of the non-border runs of a run list. -/
def runCountSum (runs : List (Nat × Nat)) : Nat :=
  ((runs.filter (fun r => nonBorder r.1)).map (fun r => r.2)).sum

/-- One item yielded by the minimizer scanner: the canonical minimizer
value together with the scanner's ambiguity flag (section 4.3; the
scanner's internals are out of scope, its yielded stream is the oracle). -/
structure ScanItem where
  ambiguous : Bool
  value : Nat

/-- The classification options consumed by `ClassifySequence`
(classify.cc `struct Options`, fields used in lines 757-894). -/
structure ClassifyOptions where
  paired_end_processing : Bool
  use_translated_search : Bool
  quick_mode : Bool
  minimum_hit_groups : Int
  confidence_threshold : ℚ
  print_scientific_name : Bool

/-- Initial value of `last_minimizer` (`UINT64_MAX`, classify.cc line 787). -/
def UINT64_SENTINEL : Nat := 2 ^ 64 - 1

/-- The per-call scratch accumulated by the scan loops of
`ClassifySequence`: the taxa trail, the hit-count map (as an association
list in first-insertion order, with distinct keys) and the
`minimizer_hit_groups` counter (an `int64_t`). -/
structure ScanAcc where
  taxa : List Nat
  hitCounts : HitCounts
  hitGroups : Int

/-- `hit_counts[taxon]++` on the association-list map. -/
def bumpHitCount : HitCounts → Nat → HitCounts
  | [], t => [(t, 1)]
  | (u, c) :: rest, t =>
    if u = t then (u, c + 1) :: rest else (u, c) :: bumpHitCount rest t

/-- One iteration of the innermost minimizer loop (classify.cc lines
789-828).  State is `(acc, last_minimizer, last_taxon)`; the result's
second component is `some taxon` when the quick-mode branch takes the
`goto` (line 820-823), in which case neither `hit_counts` nor the trail
receives the taxon.  `skipLookup` is the minimum-acceptable-hash
prefilter of lines 797-800 (`MurmurHash3` lives outside the provided
sources); `lookup` is `hash->Get`. -/
def scanItemStep (opts : ClassifyOptions) (skipLookup : Nat → Bool)
    (lookup : Nat → Nat) (st : ScanAcc × Nat × Nat) (item : ScanItem) :
    (ScanAcc × Nat × Nat) × Option Nat :=
  let acc := st.1
  let lastMin := st.2.1
  let lastTax := st.2.2
  if item.ambiguous then
    (({ acc with taxa := acc.taxa ++ [AMBIGUOUS_SPAN_TAXON] }, lastMin, lastTax), none)
  else
    let next :=
      if item.value = lastMin then (lastTax, acc.hitGroups, lastMin, lastTax)
      else
        let t := if skipLookup item.value then 0 else lookup item.value
        (t, if t = 0 then acc.hitGroups else acc.hitGroups + 1, item.value, t)
    let taxon := next.1
    let groups := next.2.1
    if taxon ≠ 0 ∧ opts.quick_mode ∧ opts.minimum_hit_groups ≤ groups then
      (({ acc with hitGroups := groups }, next.2.2.1, next.2.2.2), some taxon)
    else
      let hc := if taxon ≠ 0 then bumpHitCount acc.hitCounts taxon else acc.hitCounts
      (({ taxa := acc.taxa ++ [taxon], hitCounts := hc, hitGroups := groups },
        next.2.2.1, next.2.2.2), none)

/-- The minimizer loop over one loaded frame (classify.cc lines 789-828),
stopping early when the quick-mode `goto` fires. -/
def scanFrame (opts : ClassifyOptions) (skipLookup : Nat → Bool)
    (lookup : Nat → Nat) : List ScanItem → ScanAcc × Nat × Nat → ScanAcc × Option Nat
  | [], st => (st.1, none)
  | item :: rest, st =>
    match scanItemStep opts skipLookup lookup st item with
    | (st1, none) => scanFrame opts skipLookup lookup rest st1
    | (st1, some t) => (st1.1, some t)

/-- The frame loop of one mate (classify.cc lines 780-831): each frame is
scanned with freshly initialized `last_minimizer`/`last_taxon` (declared
inside the loop, lines 787-788); in translated mode a reading-frame border
is pushed after every frame except the last (line 829-830). -/
def runFrames (opts : ClassifyOptions) (skipLookup : Nat → Bool)
    (lookup : Nat → Nat) (frameItems : Nat → List ScanItem) :
    List Nat → ScanAcc → ScanAcc × Option Nat
  | [], acc => (acc, none)
  | idx :: rest, acc =>
    match scanFrame opts skipLookup lookup (frameItems idx)
        (acc, UINT64_SENTINEL, TAXID_MAX) with
    | (acc1, some t) => (acc1, some t)
    | (acc1, none) =>
      let acc2 :=
        if opts.use_translated_search ∧ idx ≠ 5 then
          { acc1 with taxa := acc1.taxa ++ [READING_FRAME_BORDER_TAXON] }
        else acc1
      runFrames opts skipLookup lookup frameItems rest acc2

/-- The mate loop (classify.cc lines 772-834): mate 1 is processed only
when paired; after mate 0 of a pair, the mate-pair border is pushed
(lines 832-833).  `scan mate frame` is the scanner's yield stream for the
given mate and frame index. -/
def runMates (opts : ClassifyOptions) (skipLookup : Nat → Bool)
    (lookup : Nat → Nat) (scan : Nat → Nat → List ScanItem) : ScanAcc × Option Nat :=
  let frameCt := if opts.use_translated_search then 6 else 1
  match runFrames opts skipLookup lookup (scan 0) (List.range frameCt)
      ⟨[], [], 0⟩ with
  | (acc, some t) => (acc, some t)
  | (acc, none) =>
    if opts.paired_end_processing then
      runFrames opts skipLookup lookup (scan 1) (List.range frameCt)
        { acc with taxa := acc.taxa ++ [MATE_PAIR_BORDER_TAXON] }
    else (acc, none)

/-- A sequence as `ClassifySequence` observes it for output: its header
and its length (`seq.size()`); the residue content is consumed by the
scanner, which is abstracted by the `scan` oracle. -/
structure Sequence where
  header : String
  len : Nat

/-- The observable outcome of one `ClassifySequence` call: the returned
call, the call produced by `ResolveTree` before the minimum-hit-groups
voiding, the line appended to `koss`, the `total_classified` increment,
and the final scratch state. -/
structure ClassifyResult where
  call : Nat
  resolvedCall : Nat
  line : String
  classifiedInc : Nat
  taxa : List Nat
  hitCounts : HitCounts
  hitGroups : Int
  totalMinimizers : Nat

/-- The per-read output line (classify.cc lines 848-892): status letter,
read id (pair-trimmed when paired), taxon display (external id, or name
with taxid in scientific-name mode), length info, and the hitlist (which
quick mode replaces by `<external_id>:Q`, and an empty trail by `0:0`);
`endl` terminates the line. -/
def classifyLine (tax : Taxonomy) (opts : ClassifyOptions) (call : Nat)
    (taxa : List Nat) (dna dna2 : Sequence) : String :=
  (if call ≠ 0 then "C\t" else "U\t")
  ++ ((if opts.paired_end_processing then TrimPairInfo dna.header else dna.header)
  ++ ("\t"
  ++ ((if opts.print_scientific_name then
        (if call ≠ 0 then tax.name call else "unclassified")
          ++ " (taxid " ++ toString (tax.external_id call) ++ ")"
      else toString (tax.external_id call))
  ++ ("\t"
  ++ ((if opts.paired_end_processing then
        toString dna.len ++ "|" ++ toString dna2.len
      else toString dna.len)
  ++ ("\t"
  ++ ((if opts.quick_mode then toString (tax.external_id call) ++ ":Q"
      else if taxa.isEmpty then "0:0"
      else AddHitlistString tax taxa)
  ++ "\n")))))))

/-- `ClassifySequence` (classify.cc lines 757-894).  After the search
loops, `total_kmers` is computed by `size_t` arithmetic (modelled with an
explicit `% 2^64`), and `call = ResolveTree(...)` is executed
unconditionally (line 843) — it overwrites the taxon assigned by the
quick-mode `goto` path, whose assignment is therefore dead.  The voiding
clause (lines 845-846) then zeroes a call with too few hit groups. -/
def ClassifySequence (tax : Taxonomy) (opts : ClassifyOptions)
    (skipLookup : Nat → Bool) (lookup : Nat → Nat)
    (scan : Nat → Nat → List ScanItem) (dna dna2 : Sequence) : ClassifyResult :=
  let res := runMates opts skipLookup lookup scan
  let acc := res.1
  let adj : Int := (if opts.paired_end_processing then 1 else 0)
    + (if opts.use_translated_search then (if opts.paired_end_processing then 4 else 2) else 0)
  let totalKmers : Nat := (((acc.taxa.length : Int) - adj) % (2 ^ 64 : Int)).toNat
  let resolved := ResolveTree acc.hitCounts tax totalKmers opts.confidence_threshold
  let call := if resolved ≠ 0 ∧ acc.hitGroups < opts.minimum_hit_groups then 0 else resolved
  { call := call
    resolvedCall := resolved
    line := classifyLine tax opts call acc.taxa dna dna2
    classifiedInc := if call ≠ 0 then 1 else 0
    taxa := acc.taxa
    hitCounts := acc.hitCounts
    hitGroups := acc.hitGroups
    totalMinimizers := totalKmers }

/-- Parent table of a small concrete taxonomy used by the examples of the
spec: node `1` is the root and every other nonzero node is its child
(so nodes `2`, `3`, `4`, ..., `42`, ... are siblings under `1`). -/
def exParent : Nat → Nat
  | 0 => 0
  | 1 => 0
  | _ + 2 => 1

/-- The example taxonomy: parent per `exParent`, external ids equal to
internal ids, empty names. -/
def exTax : Taxonomy where
  parent := exParent
  external_id := fun t => t
  name := fun _ => ""
  parent_lt := by
    intro t ht
    match t with
    | 1 => simp [exParent]
    | n + 2 => simp [exParent]
  parent_pos := by
    intro t ht
    match t with
    | n + 2 => simp [exParent]

/-- State of the ordered-output drain of `ProcessFiles`: the multiset of
block ids in the reorder priority queue (top = minimum), the
`next_output_block_id` counter, and the ids written to the sinks in write
order.  The queue mutex (classify.cc `critical(output_queue)`) makes the
pop-and-increment atomic, and the writer token (`output_lock`) acquired
inside it serializes the writes in pop order, so writes are modelled as
part of the pop transition. -/
structure DrainState where
  queue : List Nat
  nextOutput : Nat
  written : List Nat

/-- The transitions of the drain protocol (classify.cc lines 619-622 and
631-677): a worker pushes its finished block, or — only when the queue's
top block id equals `next_output_block_id` (line 645) — pops it,
increments `next_output_block_id` (line 652) and writes the block. -/
inductive DrainStep : DrainState → DrainState → Prop
  | push (s : DrainState) (b : Nat) :
      DrainStep s ⟨b :: s.queue, s.nextOutput, s.written⟩
  | pop (s : DrainState) (hmin : s.queue.min? = some s.nextOutput) :
      DrainStep s
        ⟨s.queue.erase s.nextOutput, s.nextOutput + 1, s.written ++ [s.nextOutput]⟩

/-- Drain states reachable from the initial state (empty queue, counter
`0`, nothing written) by worker transitions. -/
inductive DrainReachable : DrainState → Prop
  | init : DrainReachable ⟨[], 0, []⟩
  | step {s t : DrainState} : DrainReachable s → DrainStep s t → DrainReachable t

/-- Classified/unclassified stream renderers of the batch loop: the
sequence record as written by `seq->to_string()` (the `seqreader` is an
external collaborator), for the classified streams after the
` kraken:taxid|...` header suffix of classify.cc lines 573-576. -/
structure BatchSinks where
  renderTagged : Sequence → Nat → String
  render : Sequence → String

/-- Per-block accumulation of the fragment loop of `ProcessFiles`
(classify.cc lines 540-591): thread statistics and the five per-block
output strings. -/
structure BatchAcc where
  totalSequences : Nat
  totalBases : Nat
  totalClassified : Nat
  kraken : String
  classified1 : String
  classified2 : String
  unclassified1 : String
  unclassified2 : String

/-- One fragment of the paired batch loop body (classify.cc lines
554-590): count the fragment, classify it, route the two mates to the
classified or unclassified streams, and add the bases. -/
def processFragment (classifyPair : Sequence → Sequence → ClassifyResult)
    (sinks : BatchSinks) (acc : BatchAcc) (s1 s2 : Sequence) : BatchAcc :=
  let r := classifyPair s1 s2
  { totalSequences := acc.totalSequences + 1
    totalBases := acc.totalBases + s1.len + s2.len
    totalClassified := acc.totalClassified + r.classifiedInc
    kraken := acc.kraken ++ r.line
    classified1 :=
      if r.call ≠ 0 then acc.classified1 ++ sinks.renderTagged s1 r.call else acc.classified1
    classified2 :=
      if r.call ≠ 0 then acc.classified2 ++ sinks.renderTagged s2 r.call else acc.classified2
    unclassified1 :=
      if r.call = 0 then acc.unclassified1 ++ sinks.render s1 else acc.unclassified1
    unclassified2 :=
      if r.call = 0 then acc.unclassified2 ++ sinks.render s2 else acc.unclassified2 }

/-- The paired single-file batch loop (classify.cc lines 540-591 with
`single_file_pairs`): sequences are taken from the reader two at a time;
when a first mate arrives without a second (`seq2 == nullptr`,
line 545-546), `valid_fragment` is false and the loop breaks
(line 552-553) before `total_sequences++`, before `ClassifySequence`, and
before anything is appended to any stream. -/
def processPairedBatch (classifyPair : Sequence → Sequence → ClassifyResult)
    (sinks : BatchSinks) : List Sequence → BatchAcc → BatchAcc
  | [], acc => acc
  | [_], acc => acc
  | s1 :: s2 :: rest, acc =>
    processPairedBatch classifyPair sinks rest (processFragment classifyPair sinks acc s1 s2)

/-- Unfolding: the ancestor walk stops once `b ≤ a`. -/
theorem ancWalk_stop (tax : Taxonomy) {a b : Nat} (h : ¬ a < b) : ancWalk tax a b = b := by
  rw [ancWalk]
  simp [h]

/-- Unfolding: the ancestor walk climbs while `a < b`. -/
theorem ancWalk_go (tax : Taxonomy) {a b : Nat} (h : a < b) :
    ancWalk tax a b = ancWalk tax a (tax.parent b) := by
  rw [ancWalk]
  simp [h]

/-- Unfolding: the chain of `0` is `[0]`. -/
theorem chainList_zero (tax : Taxonomy) : chainList tax 0 = [0] := by
  rw [chainList]
  simp

/-- Unfolding: the chain of a nonzero node is the node followed by its
parent's chain. -/
theorem chainList_cons (tax : Taxonomy) {t : Nat} (h : t ≠ 0) :
    chainList tax t = t :: chainList tax (tax.parent t) := by
  rw [chainList]
  simp [h]

/-- Unfolding: the LCA of `0` and `b` is `b`. -/
theorem lca_zero_left (tax : Taxonomy) (b : Nat) : LowestCommonAncestor tax 0 b = b := by
  rw [LowestCommonAncestor]
  simp

/-- Unfolding: the LCA of `a` and `0` is `a`. -/
theorem lca_zero_right (tax : Taxonomy) (a : Nat) : LowestCommonAncestor tax a 0 = a := by
  rw [LowestCommonAncestor]
  by_cases h : a = 0 <;> simp [h]

/-- Unfolding: the LCA of equal operands is that operand. -/
theorem lca_self (tax : Taxonomy) (a : Nat) : LowestCommonAncestor tax a a = a := by
  rw [LowestCommonAncestor]
  by_cases h : a = 0 <;> simp [h]

/-- Unfolding: when `0 < b < a`, the left pointer climbs. -/
theorem lca_go_left (tax : Taxonomy) {a b : Nat} (hb : b ≠ 0) (h : b < a) :
    LowestCommonAncestor tax a b = LowestCommonAncestor tax (tax.parent a) b := by
  rw [LowestCommonAncestor]
  have ha : a ≠ 0 := by omega
  have hab : a ≠ b := by omega
  simp [ha, hb, hab, h]

/-- Unfolding: when `0 < a < b`, the right pointer climbs. -/
theorem lca_go_right (tax : Taxonomy) {a b : Nat} (ha : a ≠ 0) (h : a < b) :
    LowestCommonAncestor tax a b = LowestCommonAncestor tax a (tax.parent b) := by
  rw [LowestCommonAncestor]
  have hb : b ≠ 0 := by omega
  have hab : a ≠ b := by omega
  have hba : ¬ b < a := by omega
  simp [ha, hb, hab, hba]

/-- Unfolding: the climb at winner `0` returns `0`. -/
theorem resolveClimb_zero (tax : Taxonomy) (hc : HitCounts) (r : Nat) :
    resolveClimb tax hc r 0 = 0 := by
  rw [resolveClimb]
  simp

/-- Unfolding: the climb returns a nonzero winner with sufficient clade
support. -/
theorem resolveClimb_done (tax : Taxonomy) (hc : HitCounts) (r : Nat) {w : Nat}
    (hw : w ≠ 0) (h : r ≤ cladeScore tax hc w) : resolveClimb tax hc r w = w := by
  rw [resolveClimb]
  simp [hw, h]

/-- Unfolding: the climb moves to the parent when support is lacking. -/
theorem resolveClimb_up (tax : Taxonomy) (hc : HitCounts) (r : Nat) {w : Nat}
    (hw : w ≠ 0) (h : ¬ r ≤ cladeScore tax hc w) :
    resolveClimb tax hc r w = resolveClimb tax hc r (tax.parent w) := by
  rw [resolveClimb]
  simp [hw, h]

/-- The `parent` field of the example taxonomy is `exParent`. -/
theorem exTax_parent : exTax.parent = exParent := rfl

/-- The `external_id` field of the example taxonomy is the identity. -/
theorem exTax_external (t : Nat) : exTax.external_id t = t := rfl

/-- Every node lies on its own ancestor chain. -/
theorem mem_chainList_self (tax : Taxonomy) (t : Nat) : t ∈ chainList tax t := by
  by_cases h : t = 0
  · subst h
    rw [chainList_zero]
    simp
  · rw [chainList_cons tax h]
    simp

/-- Every ancestor chain reaches `0`. -/
theorem zero_mem_chainList (tax : Taxonomy) (t : Nat) : 0 ∈ chainList tax t := by
  induction t using Nat.strong_induction_on with
  | _ t ih =>
    by_cases h : t = 0
    · subst h
      rw [chainList_zero]
      simp
    · rw [chainList_cons tax h]
      exact List.mem_cons_of_mem _ (ih _ (tax.parent_lt t h))

/-- Chain members are bounded by the node (internal ids are topological). -/
theorem mem_chainList_le (tax : Taxonomy) {t c : Nat} (hc : c ∈ chainList tax t) : c ≤ t := by
  induction t using Nat.strong_induction_on with
  | _ t ih =>
    by_cases h : t = 0
    · subst h
      rw [chainList_zero] at hc
      simp at hc
      omega
    · rw [chainList_cons tax h] at hc
      rcases List.mem_cons.mp hc with h1 | h1
      · omega
      · have h2 := ih _ (tax.parent_lt t h) h1
        have h3 := tax.parent_lt t h
        omega

/-- The chain of a chain member is contained in the chain. -/
theorem chainList_subset (tax : Taxonomy) {t c : Nat} (hc : c ∈ chainList tax t) :
    ∀ d ∈ chainList tax c, d ∈ chainList tax t := by
  induction t using Nat.strong_induction_on with
  | _ t ih =>
    by_cases h : t = 0
    · subst h
      rw [chainList_zero] at hc
      simp at hc
      subst hc
      exact fun d hd => hd
    · rw [chainList_cons tax h] at hc
      rcases List.mem_cons.mp hc with h1 | h1
      · subst h1
        exact fun d hd => hd
      · intro d hd
        rw [chainList_cons tax h]
        exact List.mem_cons_of_mem _ (ih _ (tax.parent_lt t h) h1 d hd)

/-- The root `1` lies on the chain of every nonzero node (no nonzero node
dangles outside the tree). -/
theorem one_mem_chainList (tax : Taxonomy) {t : Nat} (h : t ≠ 0) : 1 ∈ chainList tax t := by
  induction t using Nat.strong_induction_on with
  | _ t ih =>
    by_cases h1 : t = 1
    · subst h1
      exact mem_chainList_self tax 1
    · have h2 : 1 < t := by omega
      have hp0 : 0 < tax.parent t := tax.parent_pos t h2
      have hplt : tax.parent t < t := tax.parent_lt t h
      rw [chainList_cons tax h]
      exact List.mem_cons_of_mem _ (ih _ hplt (by omega))

/-- A chain is linearly ordered by ancestry: a chain member below another
chain member lies on the latter's chain. -/
theorem mem_chainList_down (tax : Taxonomy) {t c d : Nat} (hc : c ∈ chainList tax t)
    (hd : d ∈ chainList tax t) (hle : c ≤ d) : c ∈ chainList tax d := by
  induction t using Nat.strong_induction_on with
  | _ t ih =>
    by_cases h : t = 0
    · subst h
      rw [chainList_zero] at hc hd
      simp at hc hd
      subst hc
      subst hd
      rw [chainList_zero]
      simp
    · rw [chainList_cons tax h] at hc hd
      rcases List.mem_cons.mp hd with h1 | h1
      · subst h1
        rw [chainList_cons tax h]
        exact hc
      · rcases List.mem_cons.mp hc with h2 | h2
        · subst h2
          have h3 := mem_chainList_le tax h1
          have h4 := tax.parent_lt c h
          omega
        · exact ih _ (tax.parent_lt t h) h2 h1

/-- Specification of the LCA walk: for nonzero operands the result lies on
both chains and dominates every common chain member. -/
theorem lca_spec (tax : Taxonomy) :
    ∀ n a b, a + b ≤ n → a ≠ 0 → b ≠ 0 →
      LowestCommonAncestor tax a b ∈ chainList tax a ∧
      LowestCommonAncestor tax a b ∈ chainList tax b ∧
      ∀ c, c ∈ chainList tax a → c ∈ chainList tax b →
        c ≤ LowestCommonAncestor tax a b := by
  intro n
  induction n with
  | zero =>
    intro a b h ha hb
    omega
  | succ n ih =>
    intro a b hn ha hb
    rcases Nat.lt_trichotomy a b with h | h | h
    · have hb2 : 1 < b := by omega
      have hp0 : tax.parent b ≠ 0 := by
        have := tax.parent_pos b hb2
        omega
      have hplt : tax.parent b < b := tax.parent_lt b hb
      rw [lca_go_right tax ha h]
      obtain ⟨m1, m2, mb⟩ := ih a (tax.parent b) (by omega) ha hp0
      refine ⟨m1, ?_, ?_⟩
      · rw [chainList_cons tax hb]
        exact List.mem_cons_of_mem _ m2
      · intro c hca hcb
        apply mb c hca
        rw [chainList_cons tax hb] at hcb
        rcases List.mem_cons.mp hcb with h1 | h1
        · exfalso
          have := mem_chainList_le tax hca
          omega
        · exact h1
    · subst h
      rw [lca_self]
      exact ⟨mem_chainList_self tax a, mem_chainList_self tax a,
        fun c hca _ => mem_chainList_le tax hca⟩
    · have ha2 : 1 < a := by omega
      have hp0 : tax.parent a ≠ 0 := by
        have := tax.parent_pos a ha2
        omega
      have hplt : tax.parent a < a := tax.parent_lt a ha
      rw [lca_go_left tax hb h]
      obtain ⟨m1, m2, mb⟩ := ih (tax.parent a) b (by omega) hp0 hb
      refine ⟨?_, m2, ?_⟩
      · rw [chainList_cons tax ha]
        exact List.mem_cons_of_mem _ m1
      · intro c hca hcb
        apply mb c _ hcb
        rw [chainList_cons tax ha] at hca
        rcases List.mem_cons.mp hca with h1 | h1
        · exfalso
          have := mem_chainList_le tax hcb
          omega
        · exact h1

/-- The LCA is commutative. -/
theorem lca_comm (tax : Taxonomy) (a b : Nat) :
    LowestCommonAncestor tax a b = LowestCommonAncestor tax b a := by
  by_cases ha : a = 0
  · subst ha
    rw [lca_zero_left, lca_zero_right]
  by_cases hb : b = 0
  · subst hb
    rw [lca_zero_left, lca_zero_right]
  obtain ⟨m1, m2, mb⟩ := lca_spec tax (a + b) a b le_rfl ha hb
  obtain ⟨n1, n2, nb⟩ := lca_spec tax (b + a) b a le_rfl hb ha
  exact Nat.le_antisymm (nb _ m2 m1) (mb _ n2 n1)

/-- The LCA of nonzero operands is nonzero (both chains contain the root). -/
theorem lca_pos (tax : Taxonomy) {a b : Nat} (ha : a ≠ 0) (hb : b ≠ 0) :
    LowestCommonAncestor tax a b ≠ 0 := by
  obtain ⟨_, _, mb⟩ := lca_spec tax (a + b) a b le_rfl ha hb
  have := mb 1 (one_mem_chainList tax ha) (one_mem_chainList tax hb)
  omega

/-- The chain of the LCA is exactly the intersection of the two chains. -/
theorem mem_chainList_lca (tax : Taxonomy) {a b : Nat} (ha : a ≠ 0) (hb : b ≠ 0) (c : Nat) :
    c ∈ chainList tax (LowestCommonAncestor tax a b) ↔
      c ∈ chainList tax a ∧ c ∈ chainList tax b := by
  obtain ⟨m1, m2, mb⟩ := lca_spec tax (a + b) a b le_rfl ha hb
  constructor
  · intro h
    exact ⟨chainList_subset tax m1 c h, chainList_subset tax m2 c h⟩
  · rintro ⟨h1, h2⟩
    exact mem_chainList_down tax h1 m1 (mb c h1 h2)

/-- The LCA is associative. -/
theorem lca_assoc (tax : Taxonomy) (a b c : Nat) :
    LowestCommonAncestor tax (LowestCommonAncestor tax a b) c
      = LowestCommonAncestor tax a (LowestCommonAncestor tax b c) := by
  by_cases ha : a = 0
  · subst ha
    rw [lca_zero_left, lca_zero_left]
  by_cases hb : b = 0
  · subst hb
    rw [lca_zero_right, lca_zero_left]
  by_cases hc : c = 0
  · subst hc
    rw [lca_zero_right, lca_zero_right]
  have hab := lca_pos tax ha hb
  have hbc := lca_pos tax hb hc
  obtain ⟨p1, p2, pb⟩ := lca_spec tax _ (LowestCommonAncestor tax a b) c le_rfl hab hc
  obtain ⟨q1, q2, qb⟩ := lca_spec tax _ a (LowestCommonAncestor tax b c) le_rfl ha hbc
  have hL := (mem_chainList_lca tax ha hb _).mp p1
  have hR := (mem_chainList_lca tax hb hc _).mp q2
  apply Nat.le_antisymm
  · exact qb _ hL.1 ((mem_chainList_lca tax hb hc _).mpr ⟨hL.2, p2⟩)
  · exact pb _ ((mem_chainList_lca tax ha hb _).mpr ⟨q1, hR.1⟩) hR.2

/-- The LCA satisfies right commutation, the shape used by the phase-1
tie-break chain. -/
theorem lca_right_comm (tax : Taxonomy) (m a b : Nat) :
    LowestCommonAncestor tax (LowestCommonAncestor tax m a) b
      = LowestCommonAncestor tax (LowestCommonAncestor tax m b) a := by
  rw [lca_assoc, lca_assoc, lca_comm tax a b]

/-- Evaluation form of `resolveStep`. -/
theorem resolveStep_eval (tax : Taxonomy) (hc : HitCounts) (s m : Nat) (kv : Nat × Nat) :
    resolveStep tax hc (s, m) kv =
      if s < rtlScore tax hc kv.1 then (rtlScore tax hc kv.1, kv.1)
      else if rtlScore tax hc kv.1 = s then (s, LowestCommonAncestor tax m kv.1)
      else (s, m) := rfl

/-- The phase-1 scan step is right-commutative: processing two candidates
in either order yields the same running state, because the LCA tie-break
is associative and commutative. -/
theorem resolveStep_comm (tax : Taxonomy) (hc : HitCounts) (z a b : Nat × Nat) :
    resolveStep tax hc (resolveStep tax hc z a) b
      = resolveStep tax hc (resolveStep tax hc z b) a := by
  obtain ⟨s, m⟩ := z
  obtain ⟨a1, ac⟩ := a
  obtain ⟨b1, bc⟩ := b
  simp only [resolveStep_eval]
  split_ifs
  all_goals simp only [resolveStep_eval]
  all_goals try split_ifs
  all_goals try rfl
  all_goals try omega
  all_goals rw [Prod.mk.injEq]
  all_goals refine ⟨by omega, ?_⟩
  all_goals try rw [lca_right_comm]
  all_goals try rw [lca_comm]

/-- RTL scores depend only on the contents of `hit_counts`. -/
theorem rtlScore_perm (tax : Taxonomy) {l1 l2 : HitCounts} (h : l1.Perm l2) (t : Nat) :
    rtlScore tax l1 t = rtlScore tax l2 t :=
  ((h.filter _).map _).sum_eq

/-- Map lookups depend only on the contents of `hit_counts`. -/
theorem lookupCount_perm {l1 l2 : HitCounts} (h : l1.Perm l2) (t : Nat) :
    lookupCount l1 t = lookupCount l2 t :=
  ((h.filter _).map _).sum_eq

/-- Clade scores depend only on the contents of `hit_counts`. -/
theorem cladeScore_perm (tax : Taxonomy) {l1 l2 : HitCounts} (h : l1.Perm l2) (w : Nat) :
    cladeScore tax l1 w = cladeScore tax l2 w :=
  ((h.filter _).map _).sum_eq

/-- The scan step is determined by the RTL scores. -/
theorem resolveStep_congr (tax : Taxonomy) {l1 l2 : HitCounts}
    (h : ∀ t, rtlScore tax l1 t = rtlScore tax l2 t) :
    resolveStep tax l1 = resolveStep tax l2 := by
  funext acc kv
  obtain ⟨s, m⟩ := acc
  simp only [resolveStep_eval, h kv.1]

/-- Phase 1 of `ResolveTree` is invariant under permutation of the
`hit_counts` iteration order. -/
theorem resolvePhase1_perm (tax : Taxonomy) {l1 l2 : HitCounts} (h : l1.Perm l2) :
    resolvePhase1 tax l1 = resolvePhase1 tax l2 := by
  unfold resolvePhase1
  rw [resolveStep_congr tax (rtlScore_perm tax h)]
  exact h.foldl_eq' (fun x _ y _ z => resolveStep_comm tax l2 z x y) (0, 0)

/-- The climb is determined by the clade scores. -/
theorem resolveClimb_congr (tax : Taxonomy) {l1 l2 : HitCounts}
    (h : ∀ w, cladeScore tax l1 w = cladeScore tax l2 w) (r : Nat) :
    ∀ w, resolveClimb tax l1 r w = resolveClimb tax l2 r w := by
  intro w
  induction w using Nat.strong_induction_on with
  | _ w ih =>
    by_cases hw : w = 0
    · subst hw
      rw [resolveClimb_zero, resolveClimb_zero]
    · by_cases hs : r ≤ cladeScore tax l1 w
      · rw [resolveClimb_done tax l1 r hw hs,
          resolveClimb_done tax l2 r hw (by rw [← h w]; exact hs)]
      · rw [resolveClimb_up tax l1 r hw hs,
          resolveClimb_up tax l2 r hw (by rw [← h w]; exact hs)]
        exact ih _ (tax.parent_lt w hw)

/-- Splitting a list's length by a Boolean predicate. -/
theorem length_filter_split (l : List Nat) (p : Nat → Bool) :
    (l.filter p).length + (l.filter (fun x => !(p x))).length = l.length := by
  induction l with
  | nil => rfl
  | cons a l ih =>
    by_cases h : p a <;> simp [List.filter_cons, h, ← ih] <;> omega

/-- The zero taxon is not a border sentinel. -/
theorem nonBorder_zero : nonBorder 0 = true := by decide

/-- The ambiguous-span sentinel is not a border sentinel (it represents a
scanned minimizer window). -/
theorem nonBorder_amb : nonBorder AMBIGUOUS_SPAN_TAXON = true := by decide

/-- The mate-pair border is a border sentinel. -/
theorem nonBorder_mate : nonBorder MATE_PAIR_BORDER_TAXON = false := by decide

/-- Count invariant of the run-length loop: the non-border run counts sum
to the carried count (when the carried code is not a border) plus the
number of non-border elements still to process. -/
theorem runCountSum_runsLoop (l : List Nat) : ∀ lastCode cnt,
    runCountSum (hitlistRunsLoop lastCode cnt l)
      = (if nonBorder lastCode then cnt else 0) + (l.filter nonBorder).length := by
  induction l with
  | nil =>
    intro lastCode cnt
    by_cases h : nonBorder lastCode <;> simp [hitlistRunsLoop, runCountSum, h]
  | cons c rest ih =>
    intro lastCode cnt
    by_cases h : c = lastCode
    · subst h
      simp only [hitlistRunsLoop, if_pos (rfl : c = c)]
      rw [show (if True then hitlistRunsLoop c (cnt + 1) rest
          else (c, cnt) :: hitlistRunsLoop c 1 rest) = hitlistRunsLoop c (cnt + 1) rest from rfl,
        ih c (cnt + 1)]
      by_cases hb : nonBorder c <;> simp [List.filter_cons, hb] <;> omega
    · simp only [hitlistRunsLoop, if_neg h]
      have hcons : runCountSum ((lastCode, cnt) :: hitlistRunsLoop c 1 rest)
          = (if nonBorder lastCode then cnt else 0) + runCountSum (hitlistRunsLoop c 1 rest) := by
        by_cases hb : nonBorder lastCode <;> simp [runCountSum, List.filter_cons, hb]
      rw [hcons, ih c 1]
      by_cases hc : nonBorder c <;> simp [List.filter_cons, hc] <;> omega

/-- Hitlist invariant, run side: the counts of the non-border runs of a
trail sum to the number of non-border trail entries. -/
theorem runCountSum_hitlistRuns (l : List Nat) :
    runCountSum (hitlistRuns l) = (l.filter nonBorder).length := by
  cases l with
  | nil => rfl
  | cons t rest =>
    show runCountSum (hitlistRunsLoop t 1 rest) = _
    rw [runCountSum_runsLoop rest t 1]
    by_cases hb : nonBorder t <;> simp [List.filter_cons, hb] <;> omega

/-- The run-length loop never produces an empty run list. -/
theorem runsLoop_ne_nil (l : List Nat) : ∀ lastCode cnt, hitlistRunsLoop lastCode cnt l ≠ [] := by
  induction l with
  | nil =>
    intro lastCode cnt
    simp [hitlistRunsLoop]
  | cons c rest ih =>
    intro lastCode cnt
    by_cases h : c = lastCode
    · subst h
      simp only [hitlistRunsLoop, if_pos rfl]
      exact ih c (cnt + 1)
    · simp [hitlistRunsLoop, if_neg h]

/-- The string built by the `AddHitlistString` loop is the rendering of
its run decomposition. -/
theorem hitlistLoop_renderRuns (tax : Taxonomy) (l : List Nat) : ∀ lastCode cnt,
    hitlistLoop tax lastCode cnt l = renderRuns tax (hitlistRunsLoop lastCode cnt l) := by
  induction l with
  | nil =>
    intro lastCode cnt
    rfl
  | cons c rest ih =>
    intro lastCode cnt
    by_cases h : c = lastCode
    · subst h
      simp only [hitlistLoop, hitlistRunsLoop, if_pos rfl]
      exact ih c (cnt + 1)
    · simp only [hitlistLoop, hitlistRunsLoop, if_neg h]
      rw [ih c 1]
      rcases hres : hitlistRunsLoop c 1 rest with _ | ⟨r, rs⟩
      · exact absurd hres (runsLoop_ne_nil rest c 1)
      · rfl

/-- `AddHitlistString` renders exactly the run decomposition of the
trail: "the runs in the emitted hitlist" are `hitlistRuns`. -/
theorem AddHitlistString_renderRuns (tax : Taxonomy) (l : List Nat) (h : l ≠ []) :
    AddHitlistString tax l = renderRuns tax (hitlistRuns l) := by
  cases l with
  | nil => exact absurd rfl h
  | cons t rest => exact hitlistLoop_renderRuns tax rest t 1

/-- With quick mode off, the quick-mode `goto` never fires in a scan step. -/
theorem scanItemStep_no_quick (opts : ClassifyOptions) (skip : Nat → Bool) (lookup : Nat → Nat)
    (hq : opts.quick_mode = false) (st : ScanAcc × Nat × Nat) (item : ScanItem) :
    (scanItemStep opts skip lookup st item).2 = none := by
  obtain ⟨acc, lastMin, lastTax⟩ := st
  simp only [scanItemStep]
  by_cases hamb : item.ambiguous <;> simp [hamb, hq]

/-- With quick mode off and an index free of border sentinels, one scan
step appends no border sentinel to the trail and preserves the
last-minimizer invariant (the initial `last_taxon` sentinel can only be
reused while `last_minimizer` still holds its `UINT64_MAX` initializer,
which no real minimizer value equals). -/
theorem scanItemStep_shape (opts : ClassifyOptions) (skip : Nat → Bool) (lookup : Nat → Nat)
    (hq : opts.quick_mode = false) (hlook : ∀ v, nonBorder (lookup v) = true)
    (acc : ScanAcc) (lastMin lastTax : Nat) (item : ScanItem)
    (hv : item.value ≠ UINT64_SENTINEL)
    (hinv : lastMin = UINT64_SENTINEL ∨ nonBorder lastTax = true) :
    (((scanItemStep opts skip lookup (acc, lastMin, lastTax) item).1.1.taxa.filter
        (fun t => !(nonBorder t))).length
      = (acc.taxa.filter (fun t => !(nonBorder t))).length)
    ∧ ((scanItemStep opts skip lookup (acc, lastMin, lastTax) item).1.2.1 = UINT64_SENTINEL
        ∨ nonBorder (scanItemStep opts skip lookup (acc, lastMin, lastTax) item).1.2.2 = true) := by
  simp only [scanItemStep]
  by_cases hamb : item.ambiguous
  · constructor
    · simp [hamb, List.filter_append, nonBorder_amb]
    · simpa [hamb] using hinv
  · by_cases hvm : item.value = lastMin
    · have hnb : nonBorder lastTax = true := by
        rcases hinv with h | h
        · exact absurd (hvm.trans h) hv
        · exact h
      constructor
      · simp [hamb, hvm, hq, List.filter_append, hnb]
      · simp [hamb, hvm, hq, hnb]
    · have hnt : nonBorder (if skip item.value then 0 else lookup item.value) = true := by
        by_cases hs : skip item.value <;> simp [hs, nonBorder_zero, hlook]
      constructor
      · simp [hamb, hvm, hq, List.filter_append, hnt]
      · simp [hamb, hvm, hq, hnt]

/-- With quick mode off, a whole frame scan fires no quick-mode exit and
appends no border sentinel to the trail. -/
theorem scanFrame_shape (opts : ClassifyOptions) (skip : Nat → Bool) (lookup : Nat → Nat)
    (hq : opts.quick_mode = false) (hlook : ∀ v, nonBorder (lookup v) = true) :
    ∀ (items : List ScanItem) (acc : ScanAcc) (lastMin lastTax : Nat),
      (∀ it ∈ items, it.value ≠ UINT64_SENTINEL) →
      (lastMin = UINT64_SENTINEL ∨ nonBorder lastTax = true) →
      (scanFrame opts skip lookup items (acc, lastMin, lastTax)).2 = none
      ∧ (((scanFrame opts skip lookup items (acc, lastMin, lastTax)).1.taxa.filter
          (fun t => !(nonBorder t))).length
        = (acc.taxa.filter (fun t => !(nonBorder t))).length) := by
  intro items
  induction items with
  | nil =>
    intro acc lastMin lastTax _ _
    exact ⟨rfl, rfl⟩
  | cons item rest ih =>
    intro acc lastMin lastTax hvals hinv
    have hnone := scanItemStep_no_quick opts skip lookup hq (acc, lastMin, lastTax) item
    obtain ⟨hlen, hinv2⟩ := scanItemStep_shape opts skip lookup hq hlook acc lastMin lastTax
      item (hvals item (by simp)) hinv
    rcases hstep : scanItemStep opts skip lookup (acc, lastMin, lastTax) item with ⟨⟨acc1, lm1, lt1⟩, o⟩
    rw [hstep] at hnone hlen hinv2
    simp only at hnone hlen hinv2
    subst hnone
    have hrest : ∀ it ∈ rest, it.value ≠ UINT64_SENTINEL := fun it h => hvals it (by simp [h])
    obtain ⟨h1, h2⟩ := ih acc1 lm1 lt1 hrest hinv2
    simp only [scanFrame, hstep]
    exact ⟨h1, h2.trans hlen⟩

/-- With quick mode off and translated search off, the frame loop is a
single frame and pushes no reading-frame border. -/
theorem runFrames_shape (opts : ClassifyOptions) (skip : Nat → Bool) (lookup : Nat → Nat)
    (frameItems : Nat → List ScanItem)
    (hq : opts.quick_mode = false) (htx : opts.use_translated_search = false)
    (hlook : ∀ v, nonBorder (lookup v) = true)
    (hvals : ∀ f, ∀ it ∈ frameItems f, it.value ≠ UINT64_SENTINEL) :
    ∀ (idxs : List Nat) (acc : ScanAcc),
      (runFrames opts skip lookup frameItems idxs acc).2 = none
      ∧ (((runFrames opts skip lookup frameItems idxs acc).1.taxa.filter
          (fun t => !(nonBorder t))).length
        = (acc.taxa.filter (fun t => !(nonBorder t))).length) := by
  intro idxs
  induction idxs with
  | nil =>
    intro acc
    exact ⟨rfl, rfl⟩
  | cons idx rest ih =>
    intro acc
    obtain ⟨hnone, hlen⟩ := scanFrame_shape opts skip lookup hq hlook (frameItems idx)
      acc UINT64_SENTINEL TAXID_MAX (hvals idx) (Or.inl rfl)
    rcases hsf : scanFrame opts skip lookup (frameItems idx) (acc, UINT64_SENTINEL, TAXID_MAX)
      with ⟨acc1, o⟩
    rw [hsf] at hnone hlen
    simp only at hnone hlen
    subst hnone
    obtain ⟨h1, h2⟩ := ih acc1
    simp only [runFrames, hsf, htx]
    constructor
    · simpa using h1
    · simpa using h2.trans hlen

/-- With quick mode off and translated search off, the full scan of a
fragment leaves exactly one border sentinel in the trail when paired
(the mate-pair border) and none otherwise. -/
theorem runMates_shape (opts : ClassifyOptions) (skip : Nat → Bool) (lookup : Nat → Nat)
    (scan : Nat → Nat → List ScanItem)
    (hq : opts.quick_mode = false) (htx : opts.use_translated_search = false)
    (hlook : ∀ v, nonBorder (lookup v) = true)
    (hvals : ∀ m f, ∀ it ∈ scan m f, it.value ≠ UINT64_SENTINEL) :
    (runMates opts skip lookup scan).2 = none
    ∧ (((runMates opts skip lookup scan).1.taxa.filter (fun t => !(nonBorder t))).length
        = if opts.paired_end_processing then 1 else 0) := by
  unfold runMates
  dsimp only
  obtain ⟨hnone, hlen⟩ := runFrames_shape opts skip lookup (scan 0) hq htx hlook (hvals 0)
    (List.range (if opts.use_translated_search then 6 else 1)) ⟨[], [], 0⟩
  rcases h0 : runFrames opts skip lookup (scan 0) (List.range (if opts.use_translated_search then 6 else 1)) ⟨[], [], 0⟩
    with ⟨acc, o⟩
  rw [h0] at hnone hlen
  simp only at hnone hlen
  subst hnone
  dsimp only
  by_cases hp : opts.paired_end_processing
  · obtain ⟨h1, h2⟩ := runFrames_shape opts skip lookup (scan 1) hq htx hlook (hvals 1)
      (List.range (if opts.use_translated_search then 6 else 1))
      { acc with taxa := acc.taxa ++ [MATE_PAIR_BORDER_TAXON] }
    simp only [hp, if_true]
    refine ⟨h1, ?_⟩
    rw [h2]
    simp [List.filter_append, nonBorder_mate, hlen]
  · simp only [hp, if_false]
    exact ⟨rfl, by simpa using hlen⟩

/-- A scan step never decreases `minimizer_hit_groups`. -/
theorem scanItemStep_groups_le (opts : ClassifyOptions) (skip : Nat → Bool) (lookup : Nat → Nat)
    (st : ScanAcc × Nat × Nat) (item : ScanItem) :
    st.1.hitGroups ≤ (scanItemStep opts skip lookup st item).1.1.hitGroups := by
  obtain ⟨acc, lastMin, lastTax⟩ := st
  simp only [scanItemStep]
  by_cases hamb : item.ambiguous
  · simp [hamb]
  · by_cases hvm : item.value = lastMin
    · simp only [hamb, hvm]
      split_ifs <;> simp
    · simp only [hamb, hvm]
      split_ifs <;> simp <;> omega

/-- A frame scan never decreases `minimizer_hit_groups`. -/
theorem scanFrame_groups_le (opts : ClassifyOptions) (skip : Nat → Bool) (lookup : Nat → Nat) :
    ∀ (items : List ScanItem) (st : ScanAcc × Nat × Nat),
      st.1.hitGroups ≤ (scanFrame opts skip lookup items st).1.hitGroups := by
  intro items
  induction items with
  | nil =>
    intro st
    exact le_rfl
  | cons item rest ih =>
    intro st
    have hstep := scanItemStep_groups_le opts skip lookup st item
    rcases hs : scanItemStep opts skip lookup st item with ⟨st1, o⟩
    rw [hs] at hstep
    rcases o with _ | t
    · simp only [scanFrame, hs]
      exact le_trans hstep (ih st1)
    · simp only [scanFrame, hs]
      exact hstep

/-- The frame loop never decreases `minimizer_hit_groups`. -/
theorem runFrames_groups_le (opts : ClassifyOptions) (skip : Nat → Bool) (lookup : Nat → Nat)
    (frameItems : Nat → List ScanItem) :
    ∀ (idxs : List Nat) (acc : ScanAcc),
      acc.hitGroups ≤ (runFrames opts skip lookup frameItems idxs acc).1.hitGroups := by
  intro idxs
  induction idxs with
  | nil =>
    intro acc
    exact le_rfl
  | cons idx rest ih =>
    intro acc
    have hf := scanFrame_groups_le opts skip lookup (frameItems idx)
      (acc, UINT64_SENTINEL, TAXID_MAX)
    rcases hs : scanFrame opts skip lookup (frameItems idx) (acc, UINT64_SENTINEL, TAXID_MAX)
      with ⟨acc1, o⟩
    rw [hs] at hf
    rcases o with _ | t
    · simp only [runFrames, hs]
      split_ifs <;> exact le_trans hf (le_trans (by simp) (ih _))
    · simp only [runFrames, hs]
      exact hf

/-- `minimizer_hit_groups` is nonnegative: it starts at `0` and is only
ever incremented. -/
theorem runMates_groups_nonneg (opts : ClassifyOptions) (skip : Nat → Bool) (lookup : Nat → Nat)
    (scan : Nat → Nat → List ScanItem) :
    0 ≤ (runMates opts skip lookup scan).1.hitGroups := by
  unfold runMates
  dsimp only
  have h0 := runFrames_groups_le opts skip lookup (scan 0)
    (List.range (if opts.use_translated_search then 6 else 1)) ⟨[], [], 0⟩
  rcases hs : runFrames opts skip lookup (scan 0)
      (List.range (if opts.use_translated_search then 6 else 1)) ⟨[], [], 0⟩ with ⟨acc, o⟩
  rw [hs] at h0
  rcases o with _ | t
  · dsimp only
    by_cases hp : opts.paired_end_processing
    · simp only [hp, if_true]
      have h1 := runFrames_groups_le opts skip lookup (scan 1)
        (List.range (if opts.use_translated_search then 6 else 1))
        { acc with taxa := acc.taxa ++ [MATE_PAIR_BORDER_TAXON] }
      simp only at h0 h1 ⊢
      omega
    · simp only [hp, if_false]
      simpa using h0
  · simpa using h0

/-- The trail recorded in a `ClassifySequence` result is the scan trail. -/
theorem ClassifySequence_taxa (tax : Taxonomy) (opts : ClassifyOptions)
    (skip : Nat → Bool) (lookup : Nat → Nat) (scan : Nat → Nat → List ScanItem)
    (dna dna2 : Sequence) :
    (ClassifySequence tax opts skip lookup scan dna dna2).taxa
      = (runMates opts skip lookup scan).1.taxa := rfl

/-- The recorded hit-group counter is the scan counter. -/
theorem ClassifySequence_hitGroups (tax : Taxonomy) (opts : ClassifyOptions)
    (skip : Nat → Bool) (lookup : Nat → Nat) (scan : Nat → Nat → List ScanItem)
    (dna dna2 : Sequence) :
    (ClassifySequence tax opts skip lookup scan dna dna2).hitGroups
      = (runMates opts skip lookup scan).1.hitGroups := rfl

/-- The recorded `total_kmers` value, as computed by classify.cc lines
838-842 with `size_t` arithmetic. -/
theorem ClassifySequence_totalMinimizers (tax : Taxonomy) (opts : ClassifyOptions)
    (skip : Nat → Bool) (lookup : Nat → Nat) (scan : Nat → Nat → List ScanItem)
    (dna dna2 : Sequence) :
    (ClassifySequence tax opts skip lookup scan dna dna2).totalMinimizers
      = ((((runMates opts skip lookup scan).1.taxa.length : Int)
          - ((if opts.paired_end_processing then 1 else 0)
            + (if opts.use_translated_search then (if opts.paired_end_processing then 4 else 2) else 0)))
          % (2 ^ 64 : Int)).toNat := rfl

/-- The resolved call recorded in a `ClassifySequence` result is the
unconditional `ResolveTree` call of classify.cc line 843. -/
theorem ClassifySequence_resolvedCall (tax : Taxonomy) (opts : ClassifyOptions)
    (skip : Nat → Bool) (lookup : Nat → Nat) (scan : Nat → Nat → List ScanItem)
    (dna dna2 : Sequence) :
    (ClassifySequence tax opts skip lookup scan dna dna2).resolvedCall
      = ResolveTree (runMates opts skip lookup scan).1.hitCounts tax
          (ClassifySequence tax opts skip lookup scan dna dna2).totalMinimizers
          opts.confidence_threshold := rfl

/-- The returned call is the resolved call after the minimum-hit-groups
voiding of classify.cc lines 845-846. -/
theorem ClassifySequence_call (tax : Taxonomy) (opts : ClassifyOptions)
    (skip : Nat → Bool) (lookup : Nat → Nat) (scan : Nat → Nat → List ScanItem)
    (dna dna2 : Sequence) :
    (ClassifySequence tax opts skip lookup scan dna dna2).call
      = if (ClassifySequence tax opts skip lookup scan dna dna2).resolvedCall ≠ 0
            ∧ (ClassifySequence tax opts skip lookup scan dna dna2).hitGroups
              < opts.minimum_hit_groups
        then 0
        else (ClassifySequence tax opts skip lookup scan dna dna2).resolvedCall := rfl

/-- The classified-counter increment of classify.cc lines 848-849. -/
theorem ClassifySequence_classifiedInc (tax : Taxonomy) (opts : ClassifyOptions)
    (skip : Nat → Bool) (lookup : Nat → Nat) (scan : Nat → Nat → List ScanItem)
    (dna dna2 : Sequence) :
    (ClassifySequence tax opts skip lookup scan dna dna2).classifiedInc
      = if (ClassifySequence tax opts skip lookup scan dna dna2).call ≠ 0 then 1 else 0 := rfl

/-- The emitted line of a `ClassifySequence` result. -/
theorem ClassifySequence_line (tax : Taxonomy) (opts : ClassifyOptions)
    (skip : Nat → Bool) (lookup : Nat → Nat) (scan : Nat → Nat → List ScanItem)
    (dna dna2 : Sequence) :
    (ClassifySequence tax opts skip lookup scan dna dna2).line
      = classifyLine tax opts (ClassifySequence tax opts skip lookup scan dna dna2).call
          (runMates opts skip lookup scan).1.taxa dna dna2 := rfl

/-- An unclassified line starts with the `U` status column. -/
theorem classifyLine_unclassified (tax : Taxonomy) (opts : ClassifyOptions)
    (taxa : List Nat) (dna dna2 : Sequence) :
    ∃ rest, classifyLine tax opts 0 taxa dna dna2 = "U\t" ++ rest :=
  ⟨_, rfl⟩

/-- The `size_t` computation of `total_kmers` with no wrap: when the
subtrahend is covered and the trail is shorter than `2^64`, the result is
plain subtraction. -/
theorem totalKmers_no_wrap (len : Nat) (adj : Int) (h0 : 0 ≤ adj) (hle : adj ≤ (len : Int))
    (hlt : (len : Int) < 2 ^ 64) :
    ((((len : Int) - adj) % (2 ^ 64 : Int))).toNat = len - adj.toNat := by
  rw [Int.emod_eq_of_lt (by omega) (by omega)]
  omega

/-- With a zero confidence threshold the required score is `0`. -/
theorem requiredScore_zero (total : Nat) : requiredScore 0 total = 0 := by
  simp [requiredScore]

/-- With a zero confidence threshold, `ResolveTree` returns the phase-1
winner unchanged: the climb loop is never entered. -/
theorem ResolveTree_zero_threshold (tax : Taxonomy) (hc : HitCounts) (total : Nat) :
    ResolveTree hc tax total 0 = (resolvePhase1 tax hc).2 := by
  unfold ResolveTree
  rw [requiredScore_zero]
  by_cases h : (resolvePhase1 tax hc).2 = 0 <;> simp [h]

/-- A filtered sum of counts is at most the total sum of counts. -/
theorem sum_filter_le (l : HitCounts) (p : Nat × Nat → Bool) :
    ((l.filter p).map (fun kv => kv.2)).sum ≤ (l.map (fun kv => kv.2)).sum := by
  induction l with
  | nil => simp
  | cons a l ih =>
    by_cases h : p a <;> simp [List.filter_cons, h] <;> omega

/-- When no clade can reach the required score, the climb runs off the
root and returns `0`. -/
theorem resolveClimb_runs_off (tax : Taxonomy) (hc : HitCounts) (r : Nat)
    (h : ∀ w, cladeScore tax hc w < r) : ∀ w, resolveClimb tax hc r w = 0 := by
  intro w
  induction w using Nat.strong_induction_on with
  | _ w ih =>
    by_cases hw : w = 0
    · subst hw
      exact resolveClimb_zero tax hc r
    · rw [resolveClimb_up tax hc r hw (by have := h w; omega)]
      exact ih _ (tax.parent_lt w hw)

/-- C1: quick-mode short-circuit.  The claim says that with paired=false,
quick_mode=true, minimum_hit_groups=1 and a first minimizer lookup
returning taxon 42, `ClassifySequence` sets the call to 42, skips tree
resolution, returns 42 and emits `C\t<id>\t42\t<len>\t42:Q`.  The code
disagrees: the quick-mode `goto` (classify.cc line 822) jumps to
`finished_searching`, but line 843 then overwrites `call` with the
unconditional `ResolveTree` result; since the short-circuit also skipped
`hit_counts[taxon]++`, the map is empty, resolution returns 0 and the
emitted line is `U\tread1\t0\t50\t0:Q`.  This theorem evaluates the
embedded code at exactly the claim's scenario. -/
theorem claim_C1_quick_mode_eval :
    (ClassifySequence exTax ⟨false, false, true, 1, 0, false⟩ (fun _ => false)
        (fun m => if m = 5 then 42 else 0) (fun _ _ => [⟨false, 5⟩, ⟨false, 5⟩])
        ⟨"read1", 50⟩ ⟨"", 0⟩).call = 0
    ∧ (ClassifySequence exTax ⟨false, false, true, 1, 0, false⟩ (fun _ => false)
        (fun m => if m = 5 then 42 else 0) (fun _ _ => [⟨false, 5⟩, ⟨false, 5⟩])
        ⟨"read1", 50⟩ ⟨"", 0⟩).line = "U\tread1\t0\t50\t0:Q\n"
    ∧ (ClassifySequence exTax ⟨false, false, true, 1, 0, false⟩ (fun _ => false)
        (fun m => if m = 5 then 42 else 0) (fun _ _ => [⟨false, 5⟩, ⟨false, 5⟩])
        ⟨"read1", 50⟩ ⟨"", 0⟩).hitCounts = [] := by
  decide

/-- C3: phase-1 tie-break and zero-threshold behavior of `ResolveTree`.
A scan step whose candidate scores exactly the running maximum replaces
the running winner with the LCA of the two; with confidence threshold 0
the required score is 0, the phase-2 climb is never entered, and
`ResolveTree` returns the phase-1 winner; on hit_counts {A:3, B:3} with
A=2, B=3 siblings under P=1 in the example taxonomy, the result is P. -/
theorem claim_C3_tie_break_lca :
    (∀ (tax : Taxonomy) (hc : HitCounts) (ms mt t c : Nat),
        rtlScore tax hc t = ms →
          resolveStep tax hc (ms, mt) (t, c) = (ms, LowestCommonAncestor tax mt t))
    ∧ (∀ (tax : Taxonomy) (hc : HitCounts) (total : Nat),
        ResolveTree hc tax total 0 = (resolvePhase1 tax hc).2)
    ∧ ResolveTree [(2, 3), (3, 3)] exTax 6 0 = 1 := by
  refine ⟨?_, ?_, ?_⟩
  · intro tax hc ms mt t c h
    simp [resolveStep_eval, h]
  · exact ResolveTree_zero_threshold
  · simp [ResolveTree, resolvePhase1, resolveStep, rtlScore, lookupCount, requiredScore,
      IsAAncestorOfB, ancWalk_stop, ancWalk_go, lca_self, lca_go_left, lca_go_right,
      lca_zero_left, lca_zero_right, exTax_parent, exParent]

/-- Witness for C3 at concrete inputs. -/
theorem claim_C3_witness :
    resolveStep exTax [(2, 3)] (3, 0) (2, 3) = (3, LowestCommonAncestor exTax 0 2)
    ∧ ResolveTree [(5, 1)] exTax 9 0 = (resolvePhase1 exTax [(5, 1)]).2 := by
  constructor
  · exact claim_C3_tie_break_lca.1 exTax [(2, 3)] 3 0 2 3 (by
      simp [rtlScore, IsAAncestorOfB, ancWalk_stop, exTax_parent, exParent])
  · exact claim_C3_tie_break_lca.2.1 exTax [(5, 1)] 9

/-- C4: phase-2 climb of `ResolveTree`.  On hit_counts {A:2, B:1, C:1}
with A=2, B=3, C=4 children of P=1, total_minimizers=4 and threshold 3/4
(required score 3), the phase-1 winner A has clade score 2 < 3, the climb
moves to P whose clade score 4 meets the requirement, and P is returned;
and whenever the required score exceeds the sum of all hit counts, every
clade score falls short, the chain runs off the root, and 0 is returned. -/
theorem claim_C4_confidence_climb :
    ResolveTree [(2, 2), (3, 1), (4, 1)] exTax 4 (3 / 4) = 1
    ∧ (∀ (tax : Taxonomy) (hc : HitCounts) (total : Nat) (th : ℚ),
        (hc.map (fun kv => kv.2)).sum < requiredScore th total →
          ResolveTree hc tax total th = 0) := by
  constructor
  · have hreq : requiredScore (3 / 4) 4 = 3 := by
      simp [requiredScore]
    have hc2 : cladeScore exTax [(2, 2), (3, 1), (4, 1)] 2 = 2 := by
      simp [cladeScore, IsAAncestorOfB, ancWalk_stop, ancWalk_go, exTax_parent, exParent]
    have hc1 : cladeScore exTax [(2, 2), (3, 1), (4, 1)] 1 = 4 := by
      simp [cladeScore, IsAAncestorOfB, ancWalk_stop, ancWalk_go, exTax_parent, exParent]
    have hphase : (resolvePhase1 exTax [(2, 2), (3, 1), (4, 1)]).2 = 2 := by
      simp [resolvePhase1, resolveStep, rtlScore, IsAAncestorOfB, ancWalk_stop, ancWalk_go,
        exTax_parent, exParent]
    have hclimb : resolveClimb exTax [(2, 2), (3, 1), (4, 1)] 3 2 = 1 := by
      rw [resolveClimb_up _ _ _ (by omega) (by rw [hc2]; omega)]
      show resolveClimb exTax [(2, 2), (3, 1), (4, 1)] 3 (exTax.parent 2) = 1
      rw [exTax_parent]
      show resolveClimb exTax [(2, 2), (3, 1), (4, 1)] 3 1 = 1
      rw [resolveClimb_done _ _ _ (by omega) (by rw [hc1]; omega)]
    simp [ResolveTree, hphase, hreq, lookupCount, hclimb]
  · intro tax hc total th h
    unfold ResolveTree
    dsimp only
    by_cases hmt : (resolvePhase1 tax hc).2 = 0
    · simp [hmt]
    · have hclade : ∀ w, cladeScore tax hc w < requiredScore th total := fun w =>
        lt_of_le_of_lt (sum_filter_le hc _) h
      have hms : ¬ requiredScore th total ≤ lookupCount hc (resolvePhase1 tax hc).2 := by
        have := sum_filter_le hc (fun kv => kv.1 = (resolvePhase1 tax hc).2)
        have h2 : lookupCount hc (resolvePhase1 tax hc).2
            ≤ (hc.map (fun kv => kv.2)).sum := this
        omega
      rw [if_neg hmt, if_neg hms]
      exact resolveClimb_runs_off tax hc _ hclade _

/-- Witness for C4's run-off-the-root clause at a concrete input. -/
theorem claim_C4_witness :
    ([((2 : Nat), (1 : Nat))].map (fun kv => kv.2)).sum < requiredScore 1 4
    ∧ ResolveTree [(2, 1)] exTax 4 1 = 0 := by
  have h : ([((2 : Nat), (1 : Nat))].map (fun kv => kv.2)).sum < requiredScore 1 4 := by
    simp [requiredScore]
  exact ⟨h, claim_C4_confidence_climb.2 exTax [(2, 1)] 4 1 h⟩

/-- C6: the claim says the hitlist never ends in a space, whatever the
final run is.  The code disagrees for a final ambiguous-span run: the
final-run branch of `AddHitlistString` keeps the trailing space in the
ambiguous case (classify.cc line 927, `oss << "A:" << code_count << " ";`),
unlike its sibling branches which drop it.  Evaluating the embedded code
on the trail `[AMBIGUOUS_SPAN]` yields `"A:1 "`, which ends in a space. -/
theorem claim_C6_trailing_space_eval :
    AddHitlistString exTax [AMBIGUOUS_SPAN_TAXON] = "A:1 "
    ∧ (AddHitlistString exTax [AMBIGUOUS_SPAN_TAXON]).data.getLast? = some ' ' := by
  decide

/-- C9: `ResolveTree` is deterministic in the sense of the claim: its
result depends only on the contents of `hit_counts`, not on the iteration
order of the backing unordered map — for any permutation of the same
entries (same totals, same threshold, same taxonomy) the returned taxon is
identical, including when the LCA tie-break chain is exercised (the
tie-break fold is right-commutative because the LCA is associative and
commutative). -/
theorem claim_C9_resolve_deterministic (tax : Taxonomy) {l1 l2 : HitCounts}
    (h : l1.Perm l2) (total : Nat) (th : ℚ) :
    ResolveTree l1 tax total th = ResolveTree l2 tax total th := by
  unfold ResolveTree
  dsimp only
  rw [resolvePhase1_perm tax h, lookupCount_perm h,
    resolveClimb_congr tax (cladeScore_perm tax h)]

/-- Witness for C9: the two iteration orders of {2:3, 3:3} resolve
identically. -/
theorem claim_C9_witness :
    ResolveTree [(2, 3), (3, 3)] exTax 6 0 = ResolveTree [(3, 3), (2, 3)] exTax 6 0 :=
  claim_C9_resolve_deterministic exTax (by decide) 6 0

/-- The character at position `size - 2` of a list ending in two
characters is the first of the two. -/
theorem getD_pair_fst (s : List Char) (a b : Char) :
    (s ++ [a, b]).getD ((s ++ [a, b]).length - 2) 'x' = a := by
  have hlen : (s ++ [a, b]).length = s.length + 2 := by simp
  rw [hlen]
  have h2 : s.length + 2 - 2 = s.length := by omega
  rw [h2, List.getD_eq_getElem?_getD, List.getElem?_append_right le_rfl]
  simp

/-- The character at position `size - 1` of a list ending in two
characters is the second of the two. -/
theorem getD_pair_snd (s : List Char) (a b : Char) :
    (s ++ [a, b]).getD ((s ++ [a, b]).length - 1) 'x' = b := by
  have hlen : (s ++ [a, b]).length = s.length + 2 := by simp
  rw [hlen]
  have h1 : s.length + 2 - 1 = s.length + 1 := by omega
  rw [h1, List.getD_eq_getElem?_getD, List.getElem?_append_right (by omega)]
  have h3 : s.length + 1 - s.length = 1 := by omega
  rw [h3]
  simp

/-- C8 counterexample: the id `/1` ends in `/1`, so the claim demands its
last two characters be stripped (yielding the empty id), but
`TrimPairInfo` returns ids of length at most 2 unchanged (classify.cc
lines 750-751). -/
theorem claim_C8_counterexample :
    TrimPairInfo "/1" ≠ String.mk (("/1" : String).data.take (("/1" : String).data.length - 2)) := by
  decide

/-- C8 amended: in paired output, a read id *longer than two characters*
ending in `/1` or `/2` is emitted with its last two characters stripped;
ids of length at most two and ids not ending in `/1` or `/2` are emitted
unchanged. -/
theorem claim_C8_trim_pair :
    (∀ (s : List Char) (a b : Char), s ≠ [] → a = '/' → (b = '1' ∨ b = '2') →
        TrimPairInfo (String.mk (s ++ [a, b])) = String.mk s)
    ∧ (∀ s : List Char, s.length ≤ 2 → TrimPairInfo (String.mk s) = String.mk s)
    ∧ (∀ (s : List Char) (a b : Char), ¬(a = '/' ∧ (b = '1' ∨ b = '2')) →
        TrimPairInfo (String.mk (s ++ [a, b])) = String.mk (s ++ [a, b])) := by
  refine ⟨?_, ?_, ?_⟩
  · intro s a b hs ha hb
    subst ha
    unfold TrimPairInfo
    dsimp only
    have hneg : ¬ (s ++ ['/', b]).length ≤ 2 := by
      have h1 := List.length_pos.mpr hs
      simp only [List.length_append, List.length_cons, List.length_nil]
      omega
    rw [if_neg hneg, getD_pair_fst, getD_pair_snd, if_pos ⟨rfl, hb⟩]
    congr 1
    have hlen : (s ++ ['/', b]).length = s.length + 2 := by simp
    rw [hlen]
    have h2 : s.length + 2 - 2 = s.length := by omega
    rw [h2]
    exact List.take_left s ['/', b]
  · intro s h
    unfold TrimPairInfo
    dsimp only
    rw [if_pos h]
  · intro s a b hcond
    unfold TrimPairInfo
    dsimp only
    by_cases hlen2 : (s ++ [a, b]).length ≤ 2
    · rw [if_pos hlen2]
    · rw [if_neg hlen2, getD_pair_fst, getD_pair_snd, if_neg hcond]

/-- Witness for C8 at concrete ids. -/
theorem claim_C8_witness :
    TrimPairInfo "read/1" = "read"
    ∧ TrimPairInfo "ab" = "ab"
    ∧ TrimPairInfo "readx1" = "readx1" := by
  refine ⟨?_, ?_, ?_⟩
  · exact claim_C8_trim_pair.1 ("read" : String).data '/' '1' (by decide) rfl (Or.inl rfl)
  · exact claim_C8_trim_pair.2.1 ("ab" : String).data (by decide)
  · exact claim_C8_trim_pair.2.2 ("read" : String).data 'x' '1' (by decide)

/-- C2 counterexample: a translated-search fragment breaks the claimed
invariant.  With six reading frames each yielding one minimizer hit, the
trail holds 6 minimizer entries and 5 reading-frame borders (one after
each frame but the last, classify.cc lines 829-830), so the hitlist's
non-sentinel run counts sum to 6, while `total_minimizers` per the
claimed formula subtracts only 2 per unpaired mate (line 842) and comes
out as 11 - 2 = 9. -/
theorem claim_C2_counterexample :
    runCountSum (hitlistRuns
        (ClassifySequence exTax ⟨false, true, false, 0, 0, false⟩ (fun _ => false)
          (fun _ => 7) (fun _ _ => [⟨false, 5⟩]) ⟨"r", 30⟩ ⟨"", 0⟩).taxa)
      ≠ (ClassifySequence exTax ⟨false, true, false, 0, 0, false⟩ (fun _ => false)
          (fun _ => 7) (fun _ _ => [⟨false, 5⟩]) ⟨"r", 30⟩ ⟨"", 0⟩).totalMinimizers := by
  decide

/-- C2 amended: for every fragment classified with quick mode off and
translated search off (the sentinel-free index and sub-`2^64` trail side
conditions are facts of any real index and read), the run-length counts
of the non-border runs of the emitted hitlist sum to the number of
non-border trail entries, which equals `total_minimizers` (trail length
minus 1 when paired); `AddHitlistString` emits exactly the rendering of
those runs, and the claim's paired example
`[10, 10, AMBIGUOUS_SPAN, MATE_PAIR_BORDER, 20]` renders as
`10:2 A:1 |:| 20:1`.  (In translated mode the trail holds five frame
borders per mate while the formula subtracts two, so the equality with
`total_minimizers` fails — see the counterexample.) -/
theorem claim_C2_hitlist_invariant (tax : Taxonomy) (opts : ClassifyOptions)
    (skip : Nat → Bool) (lookup : Nat → Nat) (scan : Nat → Nat → List ScanItem)
    (dna dna2 : Sequence)
    (hq : opts.quick_mode = false) (htx : opts.use_translated_search = false)
    (hlook : ∀ v, nonBorder (lookup v) = true)
    (hvals : ∀ m f, ∀ it ∈ scan m f, it.value ≠ UINT64_SENTINEL)
    (hlen : ((ClassifySequence tax opts skip lookup scan dna dna2).taxa.length : Int) < 2 ^ 64) :
    runCountSum (hitlistRuns (ClassifySequence tax opts skip lookup scan dna dna2).taxa)
      = ((ClassifySequence tax opts skip lookup scan dna dna2).taxa.filter nonBorder).length
    ∧ ((ClassifySequence tax opts skip lookup scan dna dna2).taxa.filter nonBorder).length
      = (ClassifySequence tax opts skip lookup scan dna dna2).totalMinimizers
    ∧ (∀ l : List Nat, l ≠ [] → AddHitlistString tax l = renderRuns tax (hitlistRuns l))
    ∧ AddHitlistString exTax [10, 10, AMBIGUOUS_SPAN_TAXON, MATE_PAIR_BORDER_TAXON, 20]
      = "10:2 A:1 |:| 20:1" := by
  refine ⟨runCountSum_hitlistRuns _, ?_, AddHitlistString_renderRuns tax, by decide⟩
  rw [ClassifySequence_taxa] at hlen ⊢
  rw [ClassifySequence_totalMinimizers]
  obtain ⟨-, hborder⟩ := runMates_shape opts skip lookup scan hq htx hlook hvals
  have hsplit := length_filter_split (runMates opts skip lookup scan).1.taxa nonBorder
  have hfle := List.length_filter_le (fun t => !(nonBorder t)) (runMates opts skip lookup scan).1.taxa
  have hadj : ((if opts.paired_end_processing then 1 else 0)
      + (if opts.use_translated_search then
          (if opts.paired_end_processing then (4 : Int) else 2) else 0) : Int)
      = (if opts.paired_end_processing then 1 else 0) := by
    simp [htx]
  rw [hadj]
  by_cases hp : opts.paired_end_processing
  · simp only [hp, if_true] at hborder ⊢
    have h1 : 1 ≤ (runMates opts skip lookup scan).1.taxa.length := by omega
    rw [totalKmers_no_wrap _ 1 (by omega) (by exact_mod_cast h1) hlen]
    omega
  · simp only [hp, Bool.false_eq_true, if_false] at hborder ⊢
    rw [totalKmers_no_wrap _ 0 (by omega) (by exact_mod_cast Int.ofNat_nonneg _) hlen]
    omega

/-- Witness for C2's amended invariant at the claim's paired example. -/
theorem claim_C2_witness :
    runCountSum (hitlistRuns
        (ClassifySequence exTax ⟨true, false, false, 0, 0, false⟩ (fun _ => false)
          (fun m => if m = 7 then 10 else if m = 8 then 20 else 0)
          (fun m _ => if m = 0 then [⟨false, 7⟩, ⟨false, 7⟩, ⟨true, 9⟩] else [⟨false, 8⟩])
          ⟨"r/1", 30⟩ ⟨"r/2", 30⟩).taxa)
      = ((ClassifySequence exTax ⟨true, false, false, 0, 0, false⟩ (fun _ => false)
          (fun m => if m = 7 then 10 else if m = 8 then 20 else 0)
          (fun m _ => if m = 0 then [⟨false, 7⟩, ⟨false, 7⟩, ⟨true, 9⟩] else [⟨false, 8⟩])
          ⟨"r/1", 30⟩ ⟨"r/2", 30⟩).taxa.filter nonBorder).length
    ∧ ((ClassifySequence exTax ⟨true, false, false, 0, 0, false⟩ (fun _ => false)
          (fun m => if m = 7 then 10 else if m = 8 then 20 else 0)
          (fun m _ => if m = 0 then [⟨false, 7⟩, ⟨false, 7⟩, ⟨true, 9⟩] else [⟨false, 8⟩])
          ⟨"r/1", 30⟩ ⟨"r/2", 30⟩).taxa.filter nonBorder).length
      = (ClassifySequence exTax ⟨true, false, false, 0, 0, false⟩ (fun _ => false)
          (fun m => if m = 7 then 10 else if m = 8 then 20 else 0)
          (fun m _ => if m = 0 then [⟨false, 7⟩, ⟨false, 7⟩, ⟨true, 9⟩] else [⟨false, 8⟩])
          ⟨"r/1", 30⟩ ⟨"r/2", 30⟩).totalMinimizers
    ∧ (∀ l : List Nat, l ≠ [] → AddHitlistString exTax l = renderRuns exTax (hitlistRuns l))
    ∧ AddHitlistString exTax [10, 10, AMBIGUOUS_SPAN_TAXON, MATE_PAIR_BORDER_TAXON, 20]
      = "10:2 A:1 |:| 20:1" :=
  claim_C2_hitlist_invariant exTax ⟨true, false, false, 0, 0, false⟩ (fun _ => false)
    (fun m => if m = 7 then 10 else if m = 8 then 20 else 0)
    (fun m _ => if m = 0 then [⟨false, 7⟩, ⟨false, 7⟩, ⟨true, 9⟩] else [⟨false, 8⟩])
    ⟨"r/1", 30⟩ ⟨"r/2", 30⟩ rfl rfl
    (by
      intro v
      by_cases h7 : v = 7
      · subst h7
        decide
      · by_cases h8 : v = 8
        · subst h8
          decide
        · simp [h7, h8]
          exact nonBorder_zero)
    (by
      intro m f it hin
      by_cases hm : m = 0
      · subst hm
        have hmem : it ∈ [ScanItem.mk false 7, ScanItem.mk false 7, ScanItem.mk true 9] := by
          simpa using hin
        fin_cases hmem <;> decide
      · have hmem : it ∈ [ScanItem.mk false 8] := by
          simpa [hm] using hin
        fin_cases hmem
        decide)
    (by decide)

/-- C5: minimum-hit-groups voiding.  After tree resolution, a nonzero
call whose observed hit-group count is below `minimum_hit_groups` is
voided to 0 (classify.cc lines 845-846): the returned call is 0, the
classified counter is not incremented, and the line is printed with `U`.
With `minimum_hit_groups = 0` the voiding clause never fires for any
input, because the hit-group counter starts at 0 and is only ever
incremented. -/
theorem claim_C5_min_hit_groups_void (tax : Taxonomy) (opts : ClassifyOptions)
    (skip : Nat → Bool) (lookup : Nat → Nat) (scan : Nat → Nat → List ScanItem)
    (dna dna2 : Sequence) :
    ((ClassifySequence tax opts skip lookup scan dna dna2).resolvedCall ≠ 0 →
      (ClassifySequence tax opts skip lookup scan dna dna2).hitGroups
          < opts.minimum_hit_groups →
        (ClassifySequence tax opts skip lookup scan dna dna2).call = 0
        ∧ (ClassifySequence tax opts skip lookup scan dna dna2).classifiedInc = 0
        ∧ ∃ rest, (ClassifySequence tax opts skip lookup scan dna dna2).line = "U\t" ++ rest)
    ∧ (opts.minimum_hit_groups = 0 →
        (ClassifySequence tax opts skip lookup scan dna dna2).call
          = (ClassifySequence tax opts skip lookup scan dna dna2).resolvedCall) := by
  constructor
  · intro h1 h2
    have hcall : (ClassifySequence tax opts skip lookup scan dna dna2).call = 0 := by
      rw [ClassifySequence_call, if_pos ⟨h1, h2⟩]
    refine ⟨hcall, ?_, ?_⟩
    · rw [ClassifySequence_classifiedInc, hcall]
      simp
    · rw [ClassifySequence_line, hcall]
      exact classifyLine_unclassified tax opts _ dna dna2
  · intro h0
    have hg : 0 ≤ (ClassifySequence tax opts skip lookup scan dna dna2).hitGroups := by
      rw [ClassifySequence_hitGroups]
      exact runMates_groups_nonneg opts skip lookup scan
    rw [ClassifySequence_call, if_neg]
    rintro ⟨-, hb⟩
    omega

/-- Witness for C5: a read with two hit groups on taxon 42 under
`minimum_hit_groups = 3` is voided and printed unclassified; under
`minimum_hit_groups = 0` the call passes through unchanged. -/
theorem claim_C5_witness :
    ((ClassifySequence exTax ⟨false, false, false, 3, 0, false⟩ (fun _ => false)
        (fun m => if m = 5 ∨ m = 6 then 42 else 0) (fun _ _ => [⟨false, 5⟩, ⟨false, 6⟩])
        ⟨"r", 20⟩ ⟨"", 0⟩).call = 0
      ∧ (ClassifySequence exTax ⟨false, false, false, 3, 0, false⟩ (fun _ => false)
          (fun m => if m = 5 ∨ m = 6 then 42 else 0) (fun _ _ => [⟨false, 5⟩, ⟨false, 6⟩])
          ⟨"r", 20⟩ ⟨"", 0⟩).classifiedInc = 0
      ∧ ∃ rest, (ClassifySequence exTax ⟨false, false, false, 3, 0, false⟩ (fun _ => false)
          (fun m => if m = 5 ∨ m = 6 then 42 else 0) (fun _ _ => [⟨false, 5⟩, ⟨false, 6⟩])
          ⟨"r", 20⟩ ⟨"", 0⟩).line = "U\t" ++ rest)
    ∧ (ClassifySequence exTax ⟨false, false, false, 0, 0, false⟩ (fun _ => false)
        (fun m => if m = 5 ∨ m = 6 then 42 else 0) (fun _ _ => [⟨false, 5⟩, ⟨false, 6⟩])
        ⟨"r", 20⟩ ⟨"", 0⟩).call
      = (ClassifySequence exTax ⟨false, false, false, 0, 0, false⟩ (fun _ => false)
          (fun m => if m = 5 ∨ m = 6 then 42 else 0) (fun _ _ => [⟨false, 5⟩, ⟨false, 6⟩])
          ⟨"r", 20⟩ ⟨"", 0⟩).resolvedCall := by
  constructor
  · apply (claim_C5_min_hit_groups_void exTax ⟨false, false, false, 3, 0, false⟩ (fun _ => false)
      (fun m => if m = 5 ∨ m = 6 then 42 else 0) (fun _ _ => [⟨false, 5⟩, ⟨false, 6⟩])
      ⟨"r", 20⟩ ⟨"", 0⟩).1
    · rw [ClassifySequence_resolvedCall]
      have h1 : (runMates ⟨false, false, false, 3, 0, false⟩ (fun _ => false)
          (fun m => if m = 5 ∨ m = 6 then 42 else 0)
          (fun _ _ => [⟨false, 5⟩, ⟨false, 6⟩])).1.hitCounts = [(42, 2)] := by decide
      rw [h1]
      dsimp only
      rw [ResolveTree_zero_threshold]
      simp [resolvePhase1, resolveStep, rtlScore, IsAAncestorOfB, ancWalk_stop,
        exTax_parent, exParent]
    · decide
  · exact (claim_C5_min_hit_groups_void exTax ⟨false, false, false, 0, 0, false⟩ (fun _ => false)
      (fun m => if m = 5 ∨ m = 6 then 42 else 0) (fun _ _ => [⟨false, 5⟩, ⟨false, 6⟩])
      ⟨"r", 20⟩ ⟨"", 0⟩).2 rfl

/-- C7: ordered output.  A worker writes an output block only when the
reorder queue's head block id equals `next_output_block_id`, popping it
and incrementing the counter before writing; consequently, in every
reachable state of the drain protocol, the sequence of block ids written
to the sinks is exactly `0, 1, 2, ...` up to `next_output_block_id`,
with no gaps and no reordering. -/
theorem claim_C7_ordered_output :
    ∀ s : DrainState, DrainReachable s → s.written = List.range s.nextOutput := by
  intro s h
  induction h with
  | init => rfl
  | step hr hstep ih =>
    cases hstep with
    | push b => simpa using ih
    | pop hmin =>
      simp only
      rw [ih, ← List.range_succ]

/-- Witness for C7: after pushing block 0 and draining it, the write log
is `[0]` and matches `range 1`. -/
theorem claim_C7_witness :
    DrainReachable ⟨[], 1, [0]⟩ ∧ ([0] : List Nat) = List.range 1 := by
  have h0 : DrainReachable ⟨[], 0, []⟩ := DrainReachable.init
  have h1 : DrainReachable ⟨[0], 0, []⟩ :=
    DrainReachable.step h0 (DrainStep.push ⟨[], 0, []⟩ 0)
  have h2 : DrainReachable ⟨[], 1, [0]⟩ := by
    have h3 := DrainReachable.step h1 (DrainStep.pop ⟨[0], 0, []⟩ (by decide))
    simpa using h3
  exact ⟨h2, claim_C7_ordered_output _ h2⟩

/-- Dropping the odd trailing record: the paired batch loop consumes
sequences two at a time and ignores a trailing unmatched first mate. -/
theorem processPairedBatch_dropLast (cp : Sequence → Sequence → ClassifyResult)
    (sinks : BatchSinks) :
    ∀ (n : Nat) (l : List Sequence), l.length ≤ n → Odd l.length →
      ∀ acc, processPairedBatch cp sinks l acc = processPairedBatch cp sinks l.dropLast acc := by
  intro n
  induction n with
  | zero =>
    intro l hl hodd acc
    have := Nat.odd_iff.mp hodd
    omega
  | succ n ih =>
    intro l hl hodd acc
    match l with
    | [] =>
      have := Nat.odd_iff.mp hodd
      simp at this
    | [x] => rfl
    | s1 :: s2 :: r :: rs =>
      have hodd2 : Odd (r :: rs).length := by
        have := Nat.odd_iff.mp hodd
        rw [Nat.odd_iff]
        simp at this ⊢
        omega
      have hlen2 : (r :: rs).length ≤ n := by
        simp at hl ⊢
        omega
      show processPairedBatch cp sinks (r :: rs) (processFragment cp sinks acc s1 s2)
          = processPairedBatch cp sinks ((s1 :: s2 :: r :: rs).dropLast) acc
      rw [show (s1 :: s2 :: r :: rs).dropLast = s1 :: s2 :: (r :: rs).dropLast by simp]
      show processPairedBatch cp sinks (r :: rs) (processFragment cp sinks acc s1 s2)
          = processPairedBatch cp sinks ((r :: rs).dropLast) (processFragment cp sinks acc s1 s2)
      exact ih (r :: rs) hlen2 hodd2 (processFragment cp sinks acc s1 s2)
    | s1 :: s2 :: [] =>
      have := Nat.odd_iff.mp hodd
      simp at this

/-- C10: in paired single-file mode, when the batch holds an odd trailing
record (a first mate with no second mate), the batch driver silently
drops it: the loop breaks before counting the fragment, before invoking
the classifier, and before appending to any of the five streams, so the
whole batch result equals that of the batch without its last record. -/
theorem claim_C10_odd_trailing_dropped (cp : Sequence → Sequence → ClassifyResult)
    (sinks : BatchSinks) (l : List Sequence) (h : Odd l.length) (acc : BatchAcc) :
    processPairedBatch cp sinks l acc = processPairedBatch cp sinks l.dropLast acc :=
  processPairedBatch_dropLast cp sinks l.length l le_rfl h acc

/-- Witness for C10: a batch holding a single unmatched mate produces
exactly the empty batch's result. -/
theorem claim_C10_witness :
    processPairedBatch (fun _ _ => ⟨0, 0, "", 0, [], [], 0, 0⟩)
        ⟨fun _ _ => "", fun _ => ""⟩ [⟨"r", 5⟩] ⟨0, 0, 0, "", "", "", "", ""⟩
      = processPairedBatch (fun _ _ => ⟨0, 0, "", 0, [], [], 0, 0⟩)
        ⟨fun _ _ => "", fun _ => ""⟩ (([⟨"r", 5⟩] : List Sequence).dropLast)
        ⟨0, 0, 0, "", "", "", "", ""⟩ :=
  claim_C10_odd_trailing_dropped _ _ _ (by decide) _

end Kraken2
